import Mathlib

/-!
Verification development for the Sonic Odyssey reward bot (`claim.js` together
with its `solanaUtils` module).

The embedding is shallow and trace-based: every function of the source is
translated into a pure Lean function parameterised by an explicit environment
describing the server's responses (one entry per request the code can make),
and each function additionally returns the list of observable effects it
performs (HTTP requests, raw-transaction submissions, timed delays, file
accesses).  Loops whose termination depends on the server are given explicit
fuel; running out of fuel is reported as a distinguished outcome so that
non-termination of the source is visible in the model.
-/

namespace SonicBot

/-- An error observed by the bot on an HTTP request: either the server answered
with an error response (`error.response` present, carrying the optional
`data.message` and `data.code` fields the code inspects), or the request failed
with no response at all (network-level failure). -/
inductive ApiError where
  | api (message : Option String) (code : Option Int)
  | network (message : String)
  deriving Repr, DecidableEq

/-- Observable effects of the program: file reads/writes, HTTP requests tagged
with the network type used to build the URL, the daily-claim POST carrying its
`stage` payload, raw-transaction submission over the connection handle, and
`setTimeout`/`delay` sleeps in milliseconds. -/
inductive Ev where
  | fileRead (name : String)
  | fileWrite (name : String)
  | http (net : Nat) (path : String)
  | claimPost (net : Nat) (stage : Nat)
  | sendTx (connUrl : String)
  | sleep (ms : Nat)
  deriving Repr, DecidableEq

def DEVNET_URL : String := "https://devnet.sonic.game/"

def TESTNET_V0_URL : String := "https://api.testnet.v0.sonic.game/"

def TESTNET_V1_URL : String := "https://api.testnet.v1.sonic.game/"

/-- The two module-level globals of `solanaUtils`: `NETWORK_TYPE` and the
connection created from it (represented by the RPC URL it wraps). -/
structure NetConfig where
  NETWORK_TYPE : Nat
  connectionUrl : String
  deriving Repr, DecidableEq

/-- `setNetType(netType)` from `solanaUtils`: stores the network type and
creates the connection by the `switch` on it (case 1 devnet, case 2 testnet v0,
case 3 and default testnet v1). -/
def setNetType (netType : Nat) : NetConfig :=
  { NETWORK_TYPE := netType
    connectionUrl :=
      if netType = 1 then DEVNET_URL
      else if netType = 2 then TESTNET_V0_URL
      else TESTNET_V1_URL }

/-- The configuration every operation of `claim.js` reads: the network type
(via `getNetType()`, used to build API URLs) and the connection handle
(`connection`, used to submit transactions). -/
structure RunCfg where
  net : Nat
  connUrl : String
  deriving Repr, DecidableEq

/-- The configuration produced by initialization in `main`: the network choice
is passed to `setNetType` and `connection = getConnection()` picks up the
connection that call created. -/
def mkRunCfg (choice : Nat) : RunCfg :=
  { net := (setNetType choice).NETWORK_TYPE
    connUrl := (setNetType choice).connectionUrl }

/-- `doTransactions(tx, keypair, retries = 3)`: serializes and submits the
transaction on `connection`; on success returns the signature; on any failure,
if `retries > 0` it sleeps 1000 ms and recurses with `retries - 1`, otherwise
it rethrows the error.  `env k` is the outcome of the `k`-th submission
attempt. -/
def doTransactions (connUrl : String) (env : Nat → Except ApiError String)
    (attempt : Nat) : Nat → Except ApiError String × List Ev
  | 0 => (env attempt, [Ev.sendTx connUrl])
  | Nat.succ r =>
    match env attempt with
    | .ok sig => (.ok sig, [Ev.sendTx connUrl])
    | .error _ =>
      let p := doTransactions connUrl env (attempt + 1) r
      (p.1, Ev.sendTx connUrl :: Ev.sleep 1000 :: p.2)

def isSendTx : Ev → Bool
  | .sendTx _ => true
  | _ => false

/-- Number of raw-transaction submission attempts recorded in a trace. -/
def txAttempts (evs : List Ev) : Nat := (evs.filter isSendTx).length

/-- Outcome of one `POST /user/transactions/rewards/claim` request: a success
response (carrying `data.data.claimed`) or an error. -/
inductive ClaimOutcome where
  | ok (claimed : Bool)
  | err (e : ApiError)
  deriving Repr, DecidableEq

/-- One iteration of `dailyClaim`'s `try`/`catch` body, as the update it
applies to `counter`: a successful claim increments it; an error with
`error.response.data.message === 'interact task not finished'` increments it;
an error with `error.response.data.code === 100015 || ... === 100016`
increments it; every other error leaves it unchanged. -/
def claimStep (counter : Nat) (o : ClaimOutcome) : Nat :=
  match o with
  | .ok _ => counter + 1
  | .err (.api message code) =>
    if message = some "interact task not finished" then counter + 1
    else if code = some 100015 ∨ code = some 100016 then counter + 1
    else counter
  | .err (.network _) => counter

/-- `const maxCounter = 3` in `dailyClaim`. -/
def maxCounter : Nat := 3

/-- Whether a claim response makes `dailyClaim`'s loop advance to the next
stage (derived from `claimStep`). -/
def advancesStage (o : ClaimOutcome) : Bool := decide (claimStep 0 o = 1)

/-- The `while (counter <= maxCounter)` loop of `dailyClaim`: each iteration
POSTs the claim for the current stage (`counter`), updates the counter by the
classification of the response, and sleeps 1000 ms in the `finally` block.
`resp i` is the server's answer to the `i`-th claim request of the loop; the
final `Bool` is `true` iff the loop condition became false within `fuel`
iterations. -/
def claimLoop (cfg : RunCfg) (resp : Nat → ClaimOutcome) :
    Nat → Nat → Nat → List Ev × Nat × Bool
  | _reqIdx, counter, 0 => ([], counter, decide (maxCounter < counter))
  | reqIdx, counter, Nat.succ f =>
    if counter ≤ maxCounter then
      let rest := claimLoop cfg resp (reqIdx + 1) (claimStep counter (resp reqIdx)) f
      (Ev.claimPost cfg.net counter :: Ev.sleep 1000 :: rest.1, rest.2)
    else ([], counter, true)

/-- Server behavior visible to `dailyClaim`: the result of
`GET /user/transactions/state/daily` (`data.data.total_transactions`; an error
makes `fetchDaily` log and return `undefined`), and the per-request claim
responses. -/
structure ClaimEnv where
  fetchDaily : Except ApiError Nat
  claimResp : Nat → ClaimOutcome

/-- How a `dailyClaim` call ended: the stage loop exited normally ("All stages
processed or max stage reached."), or it threw
`'Not enough transactions to claim rewards.'` (caught by its own `catch`), or
the stage loop was still running when the fuel ran out. -/
inductive DailyClaimOutcome where
  | finished
  | notEnough
  | outOfFuel
  deriving Repr, DecidableEq

/-- `dailyClaim(token)`: fetches the day's total transaction count; if it is
strictly greater than 10 it runs the stage loop from `counter = 1`, otherwise
it throws `'Not enough transactions to claim rewards.'`.  A failed fetch makes
`fetchDaily` return `undefined`, for which `undefined > 10` is false, so the
same throw happens. -/
def dailyClaim (cfg : RunCfg) (env : ClaimEnv) (fuel : Nat) :
    List Ev × DailyClaimOutcome :=
  let fetchEv := Ev.http cfg.net "/user/transactions/state/daily"
  match env.fetchDaily with
  | .ok n =>
    if 10 < n then
      let r := claimLoop cfg env.claimResp 0 1 fuel
      (fetchEv :: r.1, if r.2.2 then .finished else .outOfFuel)
    else ([fetchEv], .notEnough)
  | .error _ => ([fetchEv], .notEnough)

def stageOf : Ev → Option Nat
  | .claimPost _ s => some s
  | _ => none

/-- The sequence of `stage` values carried by the claim POSTs of a trace, in
order. -/
def claimStages (evs : List Ev) : List Nat := evs.filterMap stageOf

/-- Server behavior visible to `dailyLogin`: the result of
`GET /user/check-in/transaction` (`data.data.hash`), and the per-attempt
outcomes of the raw-transaction submission inside `doTransactions`.  The final
`POST /user/check-in` only affects logging. -/
structure LoginEnv where
  buildTx : Except ApiError String
  txEnv : Nat → Except ApiError String

/-- `dailyLogin(token, keypair)`: fetches the check-in transaction, signs and
submits it via `doTransactions` (default `retries = 3`), then POSTs the
signature to `/user/check-in`.  Every error is caught and logged inside the
function, so it always returns. -/
def dailyLogin (cfg : RunCfg) (env : LoginEnv) : List Ev :=
  let e0 := Ev.http cfg.net "/user/check-in/transaction"
  match env.buildTx with
  | .error _ => [e0]
  | .ok _hash =>
    let p := doTransactions cfg.connUrl env.txEnv 0 3
    match p.1 with
    | .error _ => e0 :: p.2
    | .ok _sig => e0 :: p.2 ++ [Ev.http cfg.net "/user/check-in"]

/-- The `data` of a successful `/user/rewards/mystery-box/open` response:
`data.success` and `data.amount`. -/
structure OpenResp where
  success : Bool
  amount : Nat
  deriving Repr, DecidableEq

/-- Server behavior visible to one attempt of `openMysteryBox`: the build-tx
fetch, the raw-transaction submission attempts, and the open POST. -/
structure BoxAttemptEnv where
  buildTx : Except ApiError String
  txEnv : Nat → Except ApiError String
  openResp : Except ApiError OpenResp

/-- The `try` body of `openMysteryBox`: `GET .../mystery-box/build-tx`, sign
and submit via `doTransactions` (default `retries = 3`), then
`POST .../mystery-box/open` with the signature. -/
def openBoxAttempt (cfg : RunCfg) (a : BoxAttemptEnv) :
    Except ApiError OpenResp × List Ev :=
  let e0 := Ev.http cfg.net "/user/rewards/mystery-box/build-tx"
  match a.buildTx with
  | .error er => (.error er, [e0])
  | .ok _hash =>
    let p := doTransactions cfg.connUrl a.txEnv 0 3
    match p.1 with
    | .error er => (.error er, e0 :: p.2)
    | .ok _sig =>
      (a.openResp, e0 :: p.2 ++ [Ev.http cfg.net "/user/rewards/mystery-box/open"])

/-- `openMysteryBox(token, keypair, retries = 3)`: runs the attempt body; on
any failure, if `retries > 0` it sleeps 1000 ms and recurses with
`retries - 1`, otherwise it rethrows.  `env k` describes the `k`-th attempt. -/
def openMysteryBox (cfg : RunCfg) (env : Nat → BoxAttemptEnv) (attempt : Nat) :
    Nat → Except ApiError OpenResp × List Ev
  | 0 => openBoxAttempt cfg (env attempt)
  | Nat.succ r =>
    let p := openBoxAttempt cfg (env attempt)
    match p.1 with
    | .ok resp => (.ok resp, p.2)
    | .error _ =>
      let q := openMysteryBox cfg env (attempt + 1) r
      (q.1, p.2 ++ Ev.sleep 1000 :: q.2)

/-- The `for (let i = 0; i < totalClaim; i++)` loop of `openMultipleBoxes`,
recursing on the remaining count: each round calls `openMysteryBox` (default
`retries = 3`); whatever the response's `success` flag, the loop continues; a
thrown error (exhausted retries) aborts the loop and propagates.  Returns the
trace, the list of loop indices whose `openMysteryBox` call was made, and the
propagated error, if any. -/
def openBoxesAux (cfg : RunCfg) (env : Nat → Nat → BoxAttemptEnv) (i : Nat) :
    Nat → List Ev × List Nat × Option ApiError
  | 0 => ([], [], none)
  | Nat.succ rem =>
    let p := openMysteryBox cfg (env i) 0 3
    match p.1 with
    | .ok _r =>
      let q := openBoxesAux cfg env (i + 1) rem
      (p.2 ++ q.1, i :: q.2.1, q.2.2)
    | .error e => (p.2, [i], some e)

/-- `openMultipleBoxes(token, keypair, totalClaim)`. -/
def openMultipleBoxes (cfg : RunCfg) (env : Nat → Nat → BoxAttemptEnv)
    (totalClaim : Nat) : List Ev × List Nat × Option ApiError :=
  openBoxesAux cfg env 0 totalClaim

/-- The `data.data` of `/user/rewards/info`: the fields of the profile the bot
reads. -/
structure Profile where
  wallet_balance : Nat
  ring : Nat
  ring_monitor : Nat
  deriving Repr, DecidableEq

/-- `getProfile(token)`: one `GET /user/rewards/info`; an error is caught and
logged, making the function return `undefined` (`none`). -/
def getProfile (cfg : RunCfg) (res : Except ApiError Profile) :
    Option Profile × List Ev :=
  (res.toOption, [Ev.http cfg.net "/user/rewards/info"])

/-- Server behavior visible to one iteration of `runAutoFlow`'s `while (true)`
body. -/
structure IterEnv where
  login : LoginEnv
  claim : ClaimEnv
  profile : Except ApiError Profile
  boxes : Nat → Nat → BoxAttemptEnv

/-- Result of one iteration of `runAutoFlow`'s loop body: its trace, the
`totalClaim` value passed to `openMultipleBoxes` (if execution reached it), and
whether the iteration was still inside `dailyClaim`'s stage loop when the fuel
ran out. -/
structure IterResult where
  trace : List Ev
  boxTotal : Option Nat
  stuck : Bool

/-- One iteration of `runAutoFlow(token, keypair)`'s `while (true)` body:
`await dailyLogin(...)`, then `await dailyClaim(...)`, then
`(await getProfile(token)).ring_monitor`, then
`await openMultipleBoxes(..., availableBoxes)`; any error thrown is caught by
the iteration's `catch`.  When `getProfile` returned `undefined`, reading
`.ring_monitor` throws, so box opening is skipped. -/
def runAutoFlowIter (cfg : RunCfg) (env : IterEnv) (claimFuel : Nat) : IterResult :=
  let levs := dailyLogin cfg env.login
  let c := dailyClaim cfg env.claim claimFuel
  match c.2 with
  | .outOfFuel => { trace := levs ++ c.1, boxTotal := none, stuck := true }
  | _ =>
    let pev := Ev.http cfg.net "/user/rewards/info"
    match env.profile with
    | .error _ => { trace := levs ++ c.1 ++ [pev], boxTotal := none, stuck := false }
    | .ok p =>
      let b := openMultipleBoxes cfg env.boxes p.ring_monitor
      { trace := levs ++ c.1 ++ pev :: b.1
        boxTotal := some p.ring_monitor
        stuck := false }

/-- `runAutoFlow`'s unbounded `while (true)` loop, run for a given number of
iterations: after each completed iteration it logs and sleeps 12 hours
(43200000 ms) before the next one.  An iteration stuck inside `dailyClaim`'s
stage loop never reaches the delay nor any later iteration. -/
def runAutoFlow (cfg : RunCfg) (envs : Nat → IterEnv) (claimFuel : Nat)
    (start : Nat) : Nat → List Ev
  | 0 => []
  | Nat.succ rem =>
    let r := runAutoFlowIter cfg (envs start) claimFuel
    if r.stuck then r.trace
    else r.trace ++ Ev.sleep 43200000 :: runAutoFlow cfg envs claimFuel (start + 1) rem

def isLoginEv : Ev → Bool
  | .http _ p => p == "/user/check-in/transaction" || p == "/user/check-in"
  | _ => false

def isClaimEv : Ev → Bool
  | .http _ p => p == "/user/transactions/state/daily"
  | .claimPost _ _ => true
  | _ => false

def isBoxEv : Ev → Bool
  | .http _ p => p == "/user/rewards/mystery-box/build-tx" ||
      p == "/user/rewards/mystery-box/open"
  | _ => false

/-- Server behavior visible to `getToken`: the challenge GET and the authorize
POST. -/
structure TokenEnv where
  challenge : Except ApiError String
  authorize : Except ApiError String

/-- `getToken(privateKey)`: `GET /auth/sonic/challenge`, sign the challenge,
`POST /auth/sonic/authorize`; any error is caught and logged, making the
function return `undefined` (`none`). -/
def getToken (cfg : RunCfg) (env : TokenEnv) : Option String × List Ev :=
  match env.challenge with
  | .error _ => (none, [Ev.http cfg.net "/auth/sonic/challenge"])
  | .ok _d =>
    match env.authorize with
    | .error _ =>
      (none, [Ev.http cfg.net "/auth/sonic/challenge",
              Ev.http cfg.net "/auth/sonic/authorize"])
    | .ok tok =>
      (some tok, [Ev.http cfg.net "/auth/sonic/challenge",
                  Ev.http cfg.net "/auth/sonic/authorize"])

/-- Everything `processPrivateKey` consumes for one private key: whether the
key decodes (`getKeypair` throws otherwise), the authentication and profile
responses, the interactive answers (`isAutoFlow`, the menu `method`, and the
box-count inputs of the method-2 `do`/`while` prompt, `none` standing for a
non-numeric answer), the per-iteration environments of the chosen actions, and
the fuel bounds for the two source loops without an intrinsic bound. -/
structure KeyEnv where
  keypairOk : Bool
  tokenEnv : TokenEnv
  profile : Except ApiError Profile
  autoFlow : Bool
  method : String
  boxInputs : List (Option Nat)
  iters : Nat → IterEnv
  claimFuel : Nat
  autoFuel : Nat

/-- The method-2 `do { ... } while (totalClaim > availableBoxes)` prompt loop:
an answer above `availableBoxes` re-prompts; a non-numeric answer logs and
exits the loop without opening; a valid answer opens that many boxes and then
exits.  A thrown error from `openMultipleBoxes` propagates (second component);
an exhausted input list means the loop is still prompting (third component
`false`). -/
def boxInputLoop (cfg : RunCfg) (boxEnv : Nat → Nat → BoxAttemptEnv)
    (available : Nat) : List (Option Nat) → List Ev × Option String × Bool
  | [] => ([], none, false)
  | v :: rest =>
    match v with
    | none => ([], none, true)
    | some n =>
      if available < n then boxInputLoop cfg boxEnv available rest
      else
        let b := openMultipleBoxes cfg boxEnv n
        match b.2.2 with
        | some _e => (b.1, some "box opening threw", true)
        | none => (b.1, none, true)

/-- The `try` body of `processPrivateKey`: decode the key, `getToken`,
`getProfile`; if the profile's `wallet_balance` is positive, run the auto flow
or the selected manual action.  Returns the trace, the error the body threw
(if any; `processPrivateKey`'s `catch` will swallow it), and whether the body
ever returns (`false` exactly when control is trapped in an unbounded loop:
the auto flow's `while (true)`, a stage loop that never advances, or an
endlessly re-prompting box-count loop). -/
def processBody (cfg : RunCfg) (k : KeyEnv) : List Ev × Option String × Bool :=
  if k.keypairOk = false then ([], some "bad secret key", true)
  else
    let t := getToken cfg k.tokenEnv
    let pr := getProfile cfg k.profile
    let evs0 := t.2 ++ pr.2
    match pr.1 with
    | none => (evs0, some "cannot read wallet_balance of undefined", true)
    | some p =>
      if 0 < p.wallet_balance then
        if k.autoFlow then
          (evs0 ++ runAutoFlow cfg k.iters k.claimFuel 0 k.autoFuel, none, false)
        else if k.method = "1" then
          let c := dailyClaim cfg (k.iters 0).claim k.claimFuel
          (evs0 ++ c.1, none, decide (c.2 ≠ DailyClaimOutcome.outOfFuel))
        else if k.method = "2" then
          let b := boxInputLoop cfg (k.iters 0).boxes p.ring_monitor k.boxInputs
          (evs0 ++ b.1, b.2.1, b.2.2)
        else if k.method = "3" then
          (evs0 ++ dailyLogin cfg (k.iters 0).login, none, true)
        else (evs0, some "Invalid input method selected", true)
      else (evs0, none, true)

/-- Events of the whole run: the startup read of `privateKeys.json`, the entry
into and the return from `processPrivateKey` for each index of the
`PRIVATE_KEYS` array, and the effects performed while processing that index. -/
inductive MainEv where
  | fileRead (name : String)
  | keyStart (i : Nat)
  | act (i : Nat) (e : Ev)
  | keyDone (i : Nat)
  deriving Repr, DecidableEq

/-- `processPrivateKey(privateKey)`: runs the body inside `try`/`catch`; the
`catch` only logs, so a thrown body error is swallowed and the function
returns normally.  Only a body that never returns keeps the function from
completing. -/
def processPrivateKey (cfg : RunCfg) (i : Nat) (k : KeyEnv) : List MainEv × Bool :=
  let b := processBody cfg k
  (MainEv.keyStart i :: (b.1.map (MainEv.act i) ++
      if b.2.2 then [MainEv.keyDone i] else []),
   b.2.2)

/-- The `for (let i = 0; i < PRIVATE_KEYS.length; i++)` loop of `main`:
`await processPrivateKey(PRIVATE_KEYS[i])` for each index in array order;
index `i + 1` is reached only after index `i`'s call returned.  The `Bool` is
whether the loop has completed the given number of keys. -/
def mainLoop (cfg : RunCfg) (envs : Nat → KeyEnv) : Nat → List MainEv × Bool
  | 0 => ([], true)
  | Nat.succ n =>
    let prev := mainLoop cfg envs n
    if prev.2 then
      let k := processPrivateKey cfg n (envs n)
      (prev.1 ++ k.1, k.2)
    else (prev.1, false)

/-- The whole program: at module load `PRIVATE_KEYS` is read from
`privateKeys.json` (the only file access), then `main` selects the network
type once, creates the connection once, and runs the key loop. -/
def program (choice : Nat) (envs : Nat → KeyEnv) (numKeys : Nat) : List MainEv :=
  MainEv.fileRead "privateKeys.json" :: (mainLoop (mkRunCfg choice) envs numKeys).1

def keyOf : MainEv → Nat
  | .fileRead _ => 0
  | .keyStart i => i
  | .act i _ => i
  | .keyDone i => i

/-- Events an operation of the bot may perform, given the configuration fixed
at initialization: API requests built from the configured network type,
transaction submissions on the configured connection, and sleeps — never a
file access, never another network type or connection. -/
def opEv (cfg : RunCfg) (e : Ev) : Prop :=
  (∃ p, e = Ev.http cfg.net p) ∨ (∃ s, e = Ev.claimPost cfg.net s) ∨
    e = Ev.sendTx cfg.connUrl ∨ (∃ ms, e = Ev.sleep ms)

/-- `opEv` lifted to run-level events. -/
def mainOpEv (cfg : RunCfg) : MainEv → Prop
  | .fileRead _ => False
  | .keyStart _ => True
  | .act _ e => opEv cfg e
  | .keyDone _ => True

def readsFile : MainEv → Bool
  | .fileRead _ => true
  | .act _ (Ev.fileRead _) => true
  | _ => false

def writesFile : MainEv → Bool
  | .act _ (Ev.fileWrite _) => true
  | _ => false

/-- A run-level event is consistent with a configuration when any network type
or connection it records is the configured one. -/
def mainEvUsesCfg (cfg : RunCfg) : MainEv → Bool
  | .act _ (Ev.http n _) => n == cfg.net
  | .act _ (Ev.claimPost n _) => n == cfg.net
  | .act _ (Ev.sendTx u) => u == cfg.connUrl
  | _ => true

/-- A submission environment whose first attempt fails and whose second
succeeds. -/
def txEnvRetryOnce : Nat → Except ApiError String := fun n =>
  if n = 0 then .error (.network "fetch failed") else .ok "sig"

/-- A login environment in which every request succeeds. -/
def allOkLoginEnv : LoginEnv :=
  { buildTx := .ok "hash", txEnv := fun _ => .ok "sig" }

/-- A claim environment with 25 daily transactions and every claim POST
succeeding. -/
def allOkClaimEnv : ClaimEnv :=
  { fetchDaily := .ok 25, claimResp := fun _ => .ok true }

/-- A claim environment with only 5 daily transactions. -/
def lowClaimEnv : ClaimEnv :=
  { fetchDaily := .ok 5, claimResp := fun _ => .ok true }

/-- A claim response that is always an error the stage loop does not advance
on. -/
def transientResp : Nat → ClaimOutcome := fun _ =>
  .err (.api (some "server busy") none)

/-- A box environment in which every request succeeds but every opened box
reports `success = false`. -/
def noSuccessBoxEnv : Nat → Nat → BoxAttemptEnv := fun _i _a =>
  { buildTx := .ok "hash", txEnv := fun _ => .ok "sig"
    openResp := .ok { success := false, amount := 0 } }

def allOkProfile : Profile := { wallet_balance := 5, ring := 2, ring_monitor := 1 }

/-- An auto-flow iteration environment in which every request succeeds and the
profile reports one available box. -/
def allOkIterEnv : IterEnv :=
  { login := allOkLoginEnv, claim := allOkClaimEnv
    profile := .ok allOkProfile, boxes := noSuccessBoxEnv }

/-- A per-key environment choosing the manual daily-login action, with every
request succeeding. -/
def okKeyEnv : KeyEnv :=
  { keypairOk := true
    tokenEnv := { challenge := .ok "challenge", authorize := .ok "token" }
    profile := .ok allOkProfile
    autoFlow := false
    method := "3"
    boxInputs := []
    iters := fun _ => allOkIterEnv
    claimFuel := 3
    autoFuel := 1 }

/-- A per-key environment whose private key fails to decode. -/
def badKeyEnv : KeyEnv := { okKeyEnv with keypairOk := false }

/-- A run in which the first key fails to decode and the second behaves. -/
def mixedKeyEnvs : Nat → KeyEnv := fun i => if i = 0 then badKeyEnv else okKeyEnv

theorem doTransactions_mem (connUrl : String) (env : Nat → Except ApiError String) :
    ∀ retries attempt, ∀ e ∈ (doTransactions connUrl env attempt retries).2,
      e = Ev.sendTx connUrl ∨ e = Ev.sleep 1000 := by
  intro retries
  induction retries with
  | zero => intro attempt e he; simp [doTransactions] at he; simp [he]
  | succ r ih =>
    intro attempt e he
    simp only [doTransactions] at he
    cases h : env attempt with
    | ok s => rw [h] at he; simp at he; simp [he]
    | error er =>
      rw [h] at he
      simp only [List.mem_cons] at he
      rcases he with h1 | h1 | h1
      · exact Or.inl h1
      · exact Or.inr h1
      · exact ih (attempt + 1) e h1

theorem doTransactions_attempts_le (connUrl : String)
    (env : Nat → Except ApiError String) :
    ∀ retries attempt,
      txAttempts (doTransactions connUrl env attempt retries).2 ≤ retries + 1 := by
  intro retries
  induction retries with
  | zero => intro attempt; simp [doTransactions, txAttempts, isSendTx]
  | succ r ih =>
    intro attempt
    simp only [doTransactions]
    cases h : env attempt with
    | ok s => simp [txAttempts, isSendTx]
    | error er =>
      simp only [txAttempts, List.filter, isSendTx] at *
      have := ih (attempt + 1)
      simp only [List.length_cons]
      omega

theorem doTransactions_all_fail (connUrl : String)
    (env : Nat → Except ApiError String) :
    ∀ retries attempt, (∀ j, j ≤ retries → (env (attempt + j)).isOk = false) →
      (doTransactions connUrl env attempt retries).1 = env (attempt + retries) ∧
      txAttempts (doTransactions connUrl env attempt retries).2 = retries + 1 := by
  intro retries
  induction retries with
  | zero =>
    intro attempt _h
    simp [doTransactions, txAttempts, isSendTx]
  | succ r ih =>
    intro attempt h
    have h0 : (env attempt).isOk = false := by
      have := h 0 (Nat.zero_le _); simpa using this
    simp only [doTransactions]
    cases he : env attempt with
    | ok s => rw [he] at h0; simp [Except.isOk, Except.toBool] at h0
    | error er =>
      have hr := ih (attempt + 1) (by
        intro j hj
        have := h (j + 1) (by omega)
        have harith : attempt + 1 + j = attempt + (j + 1) := by omega
        rw [harith]; exact this)
      constructor
      · have harith : attempt + 1 + r = attempt + (r + 1) := by omega
        rw [← harith]; exact hr.1
      · simp only [txAttempts, List.filter, isSendTx] at *
        simp only [List.length_cons]
        omega

theorem doTransactions_first_ok (connUrl : String)
    (env : Nat → Except ApiError String) :
    ∀ retries attempt k s, k ≤ retries →
      (∀ j, j < k → (env (attempt + j)).isOk = false) →
      env (attempt + k) = .ok s →
      (doTransactions connUrl env attempt retries).1 = .ok s ∧
      txAttempts (doTransactions connUrl env attempt retries).2 = k + 1 := by
  intro retries
  induction retries with
  | zero =>
    intro attempt k s hk _hfail hok
    interval_cases k
    simp only [doTransactions]
    simp only [Nat.add_zero] at hok
    rw [hok]
    simp [txAttempts, isSendTx]
  | succ r ih =>
    intro attempt k s hk hfail hok
    simp only [doTransactions]
    cases k with
    | zero =>
      simp only [Nat.add_zero] at hok
      rw [hok]
      simp [txAttempts, isSendTx]
    | succ k' =>
      have h0 : (env attempt).isOk = false := by
        have := hfail 0 (by omega); simpa using this
      cases he : env attempt with
      | ok s' => rw [he] at h0; simp [Except.isOk, Except.toBool] at h0
      | error er =>
        have hr := ih (attempt + 1) k' s (by omega)
          (by
            intro j hj
            have := hfail (j + 1) (by omega)
            have harith : attempt + 1 + j = attempt + (j + 1) := by omega
            rw [harith]; exact this)
          (by
            have harith : attempt + 1 + k' = attempt + (k' + 1) := by omega
            rw [harith]; exact hok)
        constructor
        · exact hr.1
        · simp only [txAttempts, List.filter, isSendTx] at *
          simp only [List.length_cons]
          omega

theorem doTransactions_sleeps (connUrl : String)
    (env : Nat → Except ApiError String) (retries attempt : Nat) :
    ∀ ms, Ev.sleep ms ∈ (doTransactions connUrl env attempt retries).2 → ms = 1000 := by
  intro ms hms
  rcases doTransactions_mem connUrl env retries attempt _ hms with h | h
  · exact absurd h (by simp)
  · injection h

theorem claimStep_eq (c : Nat) (o : ClaimOutcome) :
    claimStep c o = if advancesStage o then c + 1 else c := by
  cases o with
  | ok b => simp [claimStep, advancesStage]
  | err e =>
    cases e with
    | api m code =>
      by_cases h1 : m = some "interact task not finished"
      · simp [claimStep, advancesStage, h1]
      · by_cases h2 : code = some 100015 ∨ code = some 100016 <;>
          simp [claimStep, advancesStage, h1, h2]
    | network m => simp [claimStep, advancesStage]

theorem claimStep_ge (c : Nat) (o : ClaimOutcome) : c ≤ claimStep c o := by
  rw [claimStep_eq]; split <;> omega

theorem claimStep_le (c : Nat) (o : ClaimOutcome) : claimStep c o ≤ c + 1 := by
  rw [claimStep_eq]; split <;> omega

theorem claimLoop_done (cfg : RunCfg) (resp : Nat → ClaimOutcome) :
    ∀ fuel reqIdx counter, maxCounter < counter →
      claimLoop cfg resp reqIdx counter fuel = ([], counter, true) := by
  intro fuel reqIdx counter h
  cases fuel with
  | zero => simp [claimLoop, h]
  | succ f => simp [claimLoop, Nat.not_le.mpr h]

theorem claimLoop_mem (cfg : RunCfg) (resp : Nat → ClaimOutcome) :
    ∀ fuel reqIdx counter, ∀ e ∈ (claimLoop cfg resp reqIdx counter fuel).1,
      (∃ s, e = Ev.claimPost cfg.net s) ∨ e = Ev.sleep 1000 := by
  intro fuel
  induction fuel with
  | zero => intro reqIdx counter e he; simp [claimLoop] at he
  | succ f ih =>
    intro reqIdx counter e he
    simp only [claimLoop] at he
    by_cases h : counter ≤ maxCounter
    · rw [if_pos h] at he
      simp only [List.mem_cons] at he
      rcases he with h1 | h1 | h1
      · exact Or.inl ⟨counter, h1⟩
      · exact Or.inr h1
      · exact ih _ _ e h1
    · rw [if_neg h] at he
      simp at he

theorem claimLoop_sorted (cfg : RunCfg) (resp : Nat → ClaimOutcome) :
    ∀ fuel reqIdx counter,
      (claimStages (claimLoop cfg resp reqIdx counter fuel).1).Chain' (· ≤ ·) ∧
      (∀ s ∈ claimStages (claimLoop cfg resp reqIdx counter fuel).1,
        counter ≤ s ∧ s ≤ maxCounter) ∧
      (∀ s, (claimStages (claimLoop cfg resp reqIdx counter fuel).1).head? = some s →
        s = counter) := by
  intro fuel
  induction fuel with
  | zero =>
    intro reqIdx counter
    simp [claimLoop, claimStages]
  | succ f ih =>
    intro reqIdx counter
    simp only [claimLoop]
    by_cases h : counter ≤ maxCounter
    · rw [if_pos h]
      have ihr := ih (reqIdx + 1) (claimStep counter (resp reqIdx))
      simp only [claimStages, List.filterMap_cons, stageOf] at *
      refine ⟨?_, ?_, ?_⟩
      · rw [List.chain'_cons']
        refine ⟨?_, ihr.1⟩
        intro y hy
        have := ihr.2.2 y hy
        have := claimStep_ge counter (resp reqIdx)
        have hmem : y ∈ (claimLoop cfg resp (reqIdx + 1)
            (claimStep counter (resp reqIdx)) f).1.filterMap stageOf := by
          exact List.mem_of_mem_head? hy
        have := (ihr.2.1 y hmem).1
        omega
      · intro s hs
        simp only [List.mem_cons] at hs
        rcases hs with rfl | hs
        · exact ⟨le_refl _, h⟩
        · have := ihr.2.1 s hs
          have := claimStep_ge counter (resp reqIdx)
          omega
      · intro s hs
        simp only [List.head?_cons, Option.some.injEq] at hs
        omega
    · rw [if_neg h]
      simp [claimStages]

theorem claimLoop_advancing (cfg : RunCfg) (resp : Nat → ClaimOutcome)
    (h : ∀ i, advancesStage (resp i) = true) :
    ∀ fuel reqIdx, 3 ≤ fuel →
      claimStages (claimLoop cfg resp reqIdx 1 fuel).1 = [1, 2, 3] ∧
      (claimLoop cfg resp reqIdx 1 fuel).2.2 = true := by
  intro fuel reqIdx hf
  obtain ⟨k, rfl⟩ : ∃ k, fuel = k + 3 := ⟨fuel - 3, by omega⟩
  have hstep : ∀ c i, claimStep c (resp i) = c + 1 := by
    intro c i; rw [claimStep_eq, h i]; simp
  have h4 : claimLoop cfg resp (reqIdx + 1 + 1 + 1) 4 k = ([], 4, true) :=
    claimLoop_done cfg resp k _ 4 (by simp [maxCounter])
  show claimStages (claimLoop cfg resp reqIdx 1 (Nat.succ (Nat.succ (Nat.succ k)))).1
      = [1, 2, 3] ∧ _
  simp only [claimLoop, maxCounter, hstep]
  norm_num
  rw [h4]
  simp [claimStages, stageOf]

theorem claimLoop_stage_count_le (cfg : RunCfg) (resp : Nat → ClaimOutcome)
    (h : ∀ i, advancesStage (resp i) = true) :
    ∀ fuel reqIdx counter,
      (claimStages (claimLoop cfg resp reqIdx counter fuel).1).length ≤
        maxCounter + 1 - counter := by
  intro fuel
  induction fuel with
  | zero => intro reqIdx counter; simp [claimLoop, claimStages]
  | succ f ih =>
    intro reqIdx counter
    simp only [claimLoop]
    by_cases hc : counter ≤ maxCounter
    · rw [if_pos hc]
      simp only [claimStages, List.filterMap_cons, stageOf]
      have hstep : claimStep counter (resp reqIdx) = counter + 1 := by
        rw [claimStep_eq, h reqIdx]; simp
      rw [hstep]
      have := ih (reqIdx + 1) (counter + 1)
      simp only [claimStages] at this
      simp only [List.length_cons]
      simp only [maxCounter] at *
      omega
    · rw [if_neg hc]
      simp [claimStages]

theorem claimLoop_transient_len (cfg : RunCfg) (resp : Nat → ClaimOutcome)
    (h : ∀ i, advancesStage (resp i) = false) :
    ∀ fuel reqIdx, (claimStages (claimLoop cfg resp reqIdx 1 fuel).1).length = fuel ∧
      (claimLoop cfg resp reqIdx 1 fuel).2.2 = false := by
  intro fuel
  induction fuel with
  | zero => intro reqIdx; simp [claimLoop, claimStages, maxCounter]
  | succ f ih =>
    intro reqIdx
    have hstep : claimStep 1 (resp reqIdx) = 1 := by
      rw [claimStep_eq, h reqIdx]; simp
    simp only [claimLoop]
    rw [if_pos (by simp [maxCounter])]
    simp only [claimStages, List.filterMap_cons, stageOf, hstep]
    have := ih (reqIdx + 1)
    simp only [claimStages] at this
    constructor
    · simp only [List.length_cons]; omega
    · exact this.2

theorem claimLoop_sleeps (cfg : RunCfg) (resp : Nat → ClaimOutcome)
    (fuel reqIdx counter : Nat) :
    ∀ ms, Ev.sleep ms ∈ (claimLoop cfg resp reqIdx counter fuel).1 → ms = 1000 := by
  intro ms hms
  rcases claimLoop_mem cfg resp fuel reqIdx counter _ hms with ⟨s, h⟩ | h
  · exact absurd h (by simp)
  · injection h

theorem dailyLogin_shape (cfg : RunCfg) (env : LoginEnv) :
    ∀ e ∈ dailyLogin cfg env,
      e = Ev.http cfg.net "/user/check-in/transaction" ∨
      e = Ev.http cfg.net "/user/check-in" ∨
      e = Ev.sendTx cfg.connUrl ∨ e = Ev.sleep 1000 := by
  intro e he
  simp only [dailyLogin] at he
  cases hb : env.buildTx with
  | error er => rw [hb] at he; simp at he; simp [he]
  | ok h =>
    rw [hb] at he
    cases ht : (doTransactions cfg.connUrl env.txEnv 0 3).1 with
    | error er =>
      rw [ht] at he
      simp only [List.mem_cons] at he
      rcases he with rfl | he
      · simp
      · rcases doTransactions_mem cfg.connUrl env.txEnv 3 0 e he with h1 | h1 <;>
          simp [h1]
    | ok s =>
      rw [ht] at he
      simp only [List.mem_append, List.mem_cons, List.mem_singleton,
        List.not_mem_nil, or_false] at he
      rcases he with (rfl | he) | rfl
      · simp
      · rcases doTransactions_mem cfg.connUrl env.txEnv 3 0 e he with h1 | h1 <;>
          simp [h1]
      · simp

theorem dailyClaim_shape (cfg : RunCfg) (env : ClaimEnv) (fuel : Nat) :
    ∀ e ∈ (dailyClaim cfg env fuel).1,
      e = Ev.http cfg.net "/user/transactions/state/daily" ∨
      (∃ s, e = Ev.claimPost cfg.net s) ∨ e = Ev.sleep 1000 := by
  intro e he
  simp only [dailyClaim] at he
  split at he
  · split at he
    · simp only [List.mem_cons] at he
      rcases he with rfl | he
      · simp
      · rcases claimLoop_mem cfg env.claimResp fuel 0 1 e he with ⟨s, h1⟩ | h1
        · exact Or.inr (Or.inl ⟨s, h1⟩)
        · simp [h1]
    · simp at he; simp [he]
  · simp at he; simp [he]

theorem openBoxAttempt_shape (cfg : RunCfg) (a : BoxAttemptEnv) :
    ∀ e ∈ (openBoxAttempt cfg a).2,
      e = Ev.http cfg.net "/user/rewards/mystery-box/build-tx" ∨
      e = Ev.http cfg.net "/user/rewards/mystery-box/open" ∨
      e = Ev.sendTx cfg.connUrl ∨ e = Ev.sleep 1000 := by
  intro e he
  simp only [openBoxAttempt] at he
  cases hb : a.buildTx with
  | error er => rw [hb] at he; simp at he; simp [he]
  | ok h =>
    rw [hb] at he
    cases ht : (doTransactions cfg.connUrl a.txEnv 0 3).1 with
    | error er =>
      rw [ht] at he
      simp only [List.mem_cons] at he
      rcases he with rfl | he
      · simp
      · rcases doTransactions_mem cfg.connUrl a.txEnv 3 0 e he with h1 | h1 <;>
          simp [h1]
    | ok s =>
      rw [ht] at he
      simp only [List.mem_append, List.mem_cons, List.mem_singleton,
        List.not_mem_nil, or_false] at he
      rcases he with (rfl | he) | rfl
      · simp
      · rcases doTransactions_mem cfg.connUrl a.txEnv 3 0 e he with h1 | h1 <;>
          simp [h1]
      · simp

theorem openMysteryBox_shape (cfg : RunCfg) (env : Nat → BoxAttemptEnv) :
    ∀ retries attempt, ∀ e ∈ (openMysteryBox cfg env attempt retries).2,
      e = Ev.http cfg.net "/user/rewards/mystery-box/build-tx" ∨
      e = Ev.http cfg.net "/user/rewards/mystery-box/open" ∨
      e = Ev.sendTx cfg.connUrl ∨ e = Ev.sleep 1000 := by
  intro retries
  induction retries with
  | zero =>
    intro attempt e he
    simp only [openMysteryBox] at he
    exact openBoxAttempt_shape cfg (env attempt) e he
  | succ r ih =>
    intro attempt e he
    simp only [openMysteryBox] at he
    cases hp : (openBoxAttempt cfg (env attempt)).1 with
    | ok resp =>
      rw [hp] at he
      exact openBoxAttempt_shape cfg (env attempt) e he
    | error er =>
      rw [hp] at he
      simp only [List.mem_append, List.mem_cons] at he
      rcases he with he | rfl | he
      · exact openBoxAttempt_shape cfg (env attempt) e he
      · simp
      · exact ih (attempt + 1) e he

theorem openBoxesAux_shape (cfg : RunCfg) (env : Nat → Nat → BoxAttemptEnv) :
    ∀ rem i, ∀ e ∈ (openBoxesAux cfg env i rem).1,
      e = Ev.http cfg.net "/user/rewards/mystery-box/build-tx" ∨
      e = Ev.http cfg.net "/user/rewards/mystery-box/open" ∨
      e = Ev.sendTx cfg.connUrl ∨ e = Ev.sleep 1000 := by
  intro rem
  induction rem with
  | zero => intro i e he; simp [openBoxesAux] at he
  | succ r ih =>
    intro i e he
    simp only [openBoxesAux] at he
    cases hp : (openMysteryBox cfg (env i) 0 3).1 with
    | ok resp =>
      rw [hp] at he
      simp only [List.mem_append] at he
      rcases he with he | he
      · exact openMysteryBox_shape cfg (env i) 3 0 e he
      · exact ih (i + 1) e he
    | error er =>
      rw [hp] at he
      exact openMysteryBox_shape cfg (env i) 3 0 e he

theorem dailyLogin_not_box (cfg : RunCfg) (env : LoginEnv) :
    ∀ e ∈ dailyLogin cfg env, isBoxEv e = false := by
  intro e he
  rcases dailyLogin_shape cfg env e he with rfl | rfl | rfl | rfl <;>
    simp [isBoxEv]

theorem dailyClaim_not_box (cfg : RunCfg) (env : ClaimEnv) (fuel : Nat) :
    ∀ e ∈ (dailyClaim cfg env fuel).1, isBoxEv e = false := by
  intro e he
  rcases dailyClaim_shape cfg env fuel e he with rfl | ⟨s, rfl⟩ | rfl <;>
    simp [isBoxEv]

theorem openBoxesAux_not_login_claim (cfg : RunCfg)
    (env : Nat → Nat → BoxAttemptEnv) (rem i : Nat) :
    ∀ e ∈ (openBoxesAux cfg env i rem).1,
      isLoginEv e = false ∧ isClaimEv e = false := by
  intro e he
  rcases openBoxesAux_shape cfg env rem i e he with rfl | rfl | rfl | rfl <;>
    constructor <;> simp [isLoginEv, isClaimEv]

theorem append_no_cross (P Q : Ev → Bool) (xs ys : List Ev)
    (hx : ∀ a ∈ xs, Q a = false) (hy : ∀ a ∈ ys, P a = false) :
    ∀ (i j : Nat) (ei ej : Ev), (xs ++ ys)[i]? = some ei →
      (xs ++ ys)[j]? = some ej → Q ei = true → P ej = true → j < i := by
  intro i j ei ej hie hje hQ hP
  rcases Nat.lt_or_ge i xs.length with h1 | h1
  · exfalso
    rw [List.getElem?_append_left h1] at hie
    have := hx ei (List.getElem?_mem hie)
    rw [this] at hQ
    exact absurd hQ (by simp)
  · rcases Nat.lt_or_ge j xs.length with h2 | h2
    · omega
    · exfalso
      rw [List.getElem?_append_right h2] at hje
      have := hy ej (List.getElem?_mem hje)
      rw [this] at hP
      exact absurd hP (by simp)

theorem dailyClaim_ok_gt (cfg : RunCfg) (env : ClaimEnv) (fuel n : Nat)
    (h : env.fetchDaily = .ok n) (hn : 10 < n) :
    dailyClaim cfg env fuel =
      (Ev.http cfg.net "/user/transactions/state/daily" ::
          (claimLoop cfg env.claimResp 0 1 fuel).1,
        if (claimLoop cfg env.claimResp 0 1 fuel).2.2 then DailyClaimOutcome.finished
        else DailyClaimOutcome.outOfFuel) := by
  simp only [dailyClaim, h]
  rw [if_pos hn]

theorem dailyClaim_ok_le (cfg : RunCfg) (env : ClaimEnv) (fuel n : Nat)
    (h : env.fetchDaily = .ok n) (hn : ¬10 < n) :
    dailyClaim cfg env fuel =
      ([Ev.http cfg.net "/user/transactions/state/daily"],
        DailyClaimOutcome.notEnough) := by
  simp only [dailyClaim, h]
  rw [if_neg hn]

theorem dailyClaim_fetch_err (cfg : RunCfg) (env : ClaimEnv) (fuel : Nat)
    (er : ApiError) (h : env.fetchDaily = .error er) :
    dailyClaim cfg env fuel =
      ([Ev.http cfg.net "/user/transactions/state/daily"],
        DailyClaimOutcome.notEnough) := by
  simp only [dailyClaim, h]

theorem dailyLogin_opEv (cfg : RunCfg) (env : LoginEnv) :
    ∀ e ∈ dailyLogin cfg env, opEv cfg e := by
  intro e he
  rcases dailyLogin_shape cfg env e he with rfl | rfl | rfl | rfl
  exacts [Or.inl ⟨_, rfl⟩, Or.inl ⟨_, rfl⟩, Or.inr (Or.inr (Or.inl rfl)),
    Or.inr (Or.inr (Or.inr ⟨_, rfl⟩))]

theorem dailyClaim_opEv (cfg : RunCfg) (env : ClaimEnv) (fuel : Nat) :
    ∀ e ∈ (dailyClaim cfg env fuel).1, opEv cfg e := by
  intro e he
  rcases dailyClaim_shape cfg env fuel e he with rfl | ⟨s, rfl⟩ | rfl
  exacts [Or.inl ⟨_, rfl⟩, Or.inr (Or.inl ⟨s, rfl⟩),
    Or.inr (Or.inr (Or.inr ⟨_, rfl⟩))]

theorem openBoxesAux_opEv (cfg : RunCfg) (env : Nat → Nat → BoxAttemptEnv)
    (rem i : Nat) : ∀ e ∈ (openBoxesAux cfg env i rem).1, opEv cfg e := by
  intro e he
  rcases openBoxesAux_shape cfg env rem i e he with rfl | rfl | rfl | rfl
  exacts [Or.inl ⟨_, rfl⟩, Or.inl ⟨_, rfl⟩, Or.inr (Or.inr (Or.inl rfl)),
    Or.inr (Or.inr (Or.inr ⟨_, rfl⟩))]

theorem runAutoFlowIter_cases (cfg : RunCfg) (env : IterEnv) (claimFuel : Nat) :
    ((dailyClaim cfg env.claim claimFuel).2 = DailyClaimOutcome.outOfFuel ∧
      (runAutoFlowIter cfg env claimFuel).trace =
        dailyLogin cfg env.login ++ (dailyClaim cfg env.claim claimFuel).1 ∧
      (runAutoFlowIter cfg env claimFuel).boxTotal = none ∧
      (runAutoFlowIter cfg env claimFuel).stuck = true) ∨
    ((dailyClaim cfg env.claim claimFuel).2 ≠ DailyClaimOutcome.outOfFuel ∧
      (∃ er, env.profile = .error er) ∧
      (runAutoFlowIter cfg env claimFuel).trace =
        dailyLogin cfg env.login ++ (dailyClaim cfg env.claim claimFuel).1 ++
          [Ev.http cfg.net "/user/rewards/info"] ∧
      (runAutoFlowIter cfg env claimFuel).boxTotal = none) ∨
    ((dailyClaim cfg env.claim claimFuel).2 ≠ DailyClaimOutcome.outOfFuel ∧
      ∃ p, env.profile = .ok p ∧
        (runAutoFlowIter cfg env claimFuel).trace =
          dailyLogin cfg env.login ++ (dailyClaim cfg env.claim claimFuel).1 ++
            Ev.http cfg.net "/user/rewards/info" ::
              (openMultipleBoxes cfg env.boxes p.ring_monitor).1 ∧
        (runAutoFlowIter cfg env claimFuel).boxTotal = some p.ring_monitor) := by
  cases hc2 : (dailyClaim cfg env.claim claimFuel).2 with
  | outOfFuel =>
    left
    refine ⟨rfl, ?_, ?_, ?_⟩ <;> simp [runAutoFlowIter, hc2]
  | finished =>
    cases hp : env.profile with
    | error er =>
      right; left
      refine ⟨by simp [hc2], ⟨er, rfl⟩, ?_, ?_⟩ <;> simp [runAutoFlowIter, hc2, hp]
    | ok p =>
      right; right
      refine ⟨by simp [hc2], p, rfl, ?_, ?_⟩ <;> simp [runAutoFlowIter, hc2, hp]
  | notEnough =>
    cases hp : env.profile with
    | error er =>
      right; left
      refine ⟨by simp [hc2], ⟨er, rfl⟩, ?_, ?_⟩ <;> simp [runAutoFlowIter, hc2, hp]
    | ok p =>
      right; right
      refine ⟨by simp [hc2], p, rfl, ?_, ?_⟩ <;> simp [runAutoFlowIter, hc2, hp]

theorem runAutoFlowIter_opEv (cfg : RunCfg) (env : IterEnv) (claimFuel : Nat) :
    ∀ e ∈ (runAutoFlowIter cfg env claimFuel).trace, opEv cfg e := by
  intro e he
  rcases runAutoFlowIter_cases cfg env claimFuel with
    ⟨_, htr, _, _⟩ | ⟨_, _, htr, _⟩ | ⟨_, p, _, htr, _⟩
  · rw [htr] at he
    rcases List.mem_append.mp he with h | h
    · exact dailyLogin_opEv cfg env.login e h
    · exact dailyClaim_opEv cfg env.claim claimFuel e h
  · rw [htr] at he
    rcases List.mem_append.mp he with h | h
    · rcases List.mem_append.mp h with h1 | h1
      · exact dailyLogin_opEv cfg env.login e h1
      · exact dailyClaim_opEv cfg env.claim claimFuel e h1
    · rw [List.mem_singleton] at h
      exact Or.inl ⟨_, h⟩
  · rw [htr] at he
    rcases List.mem_append.mp he with h | h
    · rcases List.mem_append.mp h with h1 | h1
      · exact dailyLogin_opEv cfg env.login e h1
      · exact dailyClaim_opEv cfg env.claim claimFuel e h1
    · rcases List.mem_cons.mp h with rfl | h1
      · exact Or.inl ⟨_, rfl⟩
      · exact openBoxesAux_opEv cfg env.boxes p.ring_monitor 0 e h1

theorem runAutoFlow_opEv (cfg : RunCfg) (envs : Nat → IterEnv) (claimFuel : Nat) :
    ∀ rounds start, ∀ e ∈ runAutoFlow cfg envs claimFuel start rounds, opEv cfg e := by
  intro rounds
  induction rounds with
  | zero => intro start e he; simp [runAutoFlow] at he
  | succ r ih =>
    intro start e he
    simp only [runAutoFlow] at he
    split at he
    · exact runAutoFlowIter_opEv cfg (envs start) claimFuel e he
    · rcases List.mem_append.mp he with h | h
      · exact runAutoFlowIter_opEv cfg (envs start) claimFuel e h
      · rcases List.mem_cons.mp h with rfl | h1
        · exact Or.inr (Or.inr (Or.inr ⟨_, rfl⟩))
        · exact ih (start + 1) e h1

theorem getToken_opEv (cfg : RunCfg) (env : TokenEnv) :
    ∀ e ∈ (getToken cfg env).2, opEv cfg e := by
  intro e he
  simp only [getToken] at he
  cases hc : env.challenge with
  | error er =>
    rw [hc] at he; simp at he; exact Or.inl ⟨_, he⟩
  | ok d =>
    rw [hc] at he
    cases ha : env.authorize with
    | error er =>
      rw [ha] at he; simp at he
      rcases he with rfl | rfl
      exacts [Or.inl ⟨_, rfl⟩, Or.inl ⟨_, rfl⟩]
    | ok t =>
      rw [ha] at he; simp at he
      rcases he with rfl | rfl
      exacts [Or.inl ⟨_, rfl⟩, Or.inl ⟨_, rfl⟩]

theorem boxInputLoop_opEv (cfg : RunCfg) (boxEnv : Nat → Nat → BoxAttemptEnv)
    (available : Nat) :
    ∀ inputs, ∀ e ∈ (boxInputLoop cfg boxEnv available inputs).1, opEv cfg e := by
  intro inputs
  induction inputs with
  | nil => intro e he; simp [boxInputLoop] at he
  | cons v rest ih =>
    intro e he
    simp only [boxInputLoop] at he
    split at he
    · simp at he
    · split at he
      · exact ih e he
      · split at he <;> exact openBoxesAux_opEv cfg boxEnv _ 0 e he

theorem processBody_opEv (cfg : RunCfg) (k : KeyEnv) :
    ∀ e ∈ (processBody cfg k).1, opEv cfg e := by
  have hfront : ∀ e ∈ (getToken cfg k.tokenEnv).2 ++ (getProfile cfg k.profile).2,
      opEv cfg e := by
    intro e he
    rcases List.mem_append.mp he with h | h
    · exact getToken_opEv cfg k.tokenEnv e h
    · simp only [getProfile, List.mem_singleton] at h
      exact Or.inl ⟨_, h⟩
  intro e he
  simp only [processBody] at he
  split at he
  · simp at he
  · split at he
    · exact hfront e he
    · split at he
      · split at he
        · rcases List.mem_append.mp he with h | h
          · exact hfront e h
          · exact runAutoFlow_opEv cfg k.iters k.claimFuel k.autoFuel 0 e h
        · split at he
          · rcases List.mem_append.mp he with h | h
            · exact hfront e h
            · exact dailyClaim_opEv cfg (k.iters 0).claim k.claimFuel e h
          · split at he
            · rcases List.mem_append.mp he with h | h
              · exact hfront e h
              · exact boxInputLoop_opEv cfg (k.iters 0).boxes _ k.boxInputs e h
            · split at he
              · rcases List.mem_append.mp he with h | h
                · exact hfront e h
                · exact dailyLogin_opEv cfg (k.iters 0).login e h
              · exact hfront e he
      · exact hfront e he

theorem processPrivateKey_mainOpEv (cfg : RunCfg) (i : Nat) (k : KeyEnv) :
    ∀ e ∈ (processPrivateKey cfg i k).1, mainOpEv cfg e := by
  intro e he
  simp only [processPrivateKey, List.mem_cons, List.mem_append] at he
  rcases he with rfl | he | he
  · trivial
  · rcases List.mem_map.mp he with ⟨ev, hev, rfl⟩
    exact processBody_opEv cfg k ev hev
  · split at he
    · rw [List.mem_singleton] at he; subst he; trivial
    · simp at he

theorem mainLoop_mainOpEv (cfg : RunCfg) (envs : Nat → KeyEnv) :
    ∀ n, ∀ e ∈ (mainLoop cfg envs n).1, mainOpEv cfg e := by
  intro n
  induction n with
  | zero => intro e he; simp [mainLoop] at he
  | succ m ih =>
    intro e he
    simp only [mainLoop] at he
    split at he
    · rcases List.mem_append.mp he with h | h
      · exact ih e h
      · exact processPrivateKey_mainOpEv cfg m (envs m) e h
    · exact ih e he

theorem processPrivateKey_tags (cfg : RunCfg) (i : Nat) (k : KeyEnv) :
    ∀ e ∈ (processPrivateKey cfg i k).1, keyOf e = i := by
  intro e he
  simp only [processPrivateKey, List.mem_cons, List.mem_append] at he
  rcases he with rfl | he | he
  · rfl
  · rcases List.mem_map.mp he with ⟨ev, _hev, rfl⟩; rfl
  · split at he
    · rw [List.mem_singleton] at he; subst he; rfl
    · simp at he

theorem mainLoop_tags_lt (cfg : RunCfg) (envs : Nat → KeyEnv) :
    ∀ n, ∀ e ∈ (mainLoop cfg envs n).1, keyOf e < n := by
  intro n
  induction n with
  | zero => intro e he; simp [mainLoop] at he
  | succ m ih =>
    intro e he
    simp only [mainLoop] at he
    split at he
    · rcases List.mem_append.mp he with h | h
      · exact Nat.lt_succ_of_lt (ih e h)
      · rw [processPrivateKey_tags cfg m (envs m) e h]; omega
    · exact Nat.lt_succ_of_lt (ih e he)

theorem pairwise_tags_const (i : Nat) :
    ∀ l : List MainEv, (∀ e ∈ l, keyOf e = i) →
      l.Pairwise (fun a b => keyOf a ≤ keyOf b) := by
  intro l
  induction l with
  | nil => intro _; exact List.Pairwise.nil
  | cons a tl ih =>
    intro h
    refine List.Pairwise.cons ?_ (ih fun e he => h e (List.mem_cons_of_mem a he))
    intro b hb
    rw [h a (List.mem_cons_self a tl), h b (List.mem_cons_of_mem a hb)]

theorem mainLoop_pairwise (cfg : RunCfg) (envs : Nat → KeyEnv) :
    ∀ n, (mainLoop cfg envs n).1.Pairwise (fun a b => keyOf a ≤ keyOf b) := by
  intro n
  induction n with
  | zero => simp [mainLoop]
  | succ m ih =>
    simp only [mainLoop]
    split
    · refine List.pairwise_append.mpr ⟨ih, ?_, ?_⟩
      · exact pairwise_tags_const m _ (processPrivateKey_tags cfg m (envs m))
      · intro a ha b hb
        have h1 := mainLoop_tags_lt cfg envs m a ha
        have h2 := processPrivateKey_tags cfg m (envs m) b hb
        omega
    · exact ih

theorem processPrivateKey_start_mem (cfg : RunCfg) (i : Nat) (k : KeyEnv) :
    MainEv.keyStart i ∈ (processPrivateKey cfg i k).1 := by
  simp [processPrivateKey]

theorem processPrivateKey_done_mem (cfg : RunCfg) (i : Nat) (k : KeyEnv)
    (h : (processPrivateKey cfg i k).2 = true) :
    MainEv.keyDone i ∈ (processPrivateKey cfg i k).1 := by
  simp only [processPrivateKey] at h ⊢
  rw [h]
  simp

theorem mainLoop_succ_true (cfg : RunCfg) (envs : Nat → KeyEnv) (n : Nat)
    (h : (mainLoop cfg envs n).2 = true) :
    mainLoop cfg envs (Nat.succ n) =
      ((mainLoop cfg envs n).1 ++ (processPrivateKey cfg n (envs n)).1,
        (processPrivateKey cfg n (envs n)).2) := by
  simp only [mainLoop]
  rw [h]
  simp

theorem mainLoop_succ_false (cfg : RunCfg) (envs : Nat → KeyEnv) (n : Nat)
    (h : (mainLoop cfg envs n).2 = false) :
    mainLoop cfg envs (Nat.succ n) = ((mainLoop cfg envs n).1, false) := by
  simp only [mainLoop]
  rw [h]
  simp

theorem mainLoop_alive_done (cfg : RunCfg) (envs : Nat → KeyEnv) :
    ∀ n, (mainLoop cfg envs n).2 = true →
      ∀ j, j < n → MainEv.keyDone j ∈ (mainLoop cfg envs n).1 := by
  intro n
  induction n with
  | zero => intro _ j hj; omega
  | succ m ih =>
    intro halive j hj
    cases hprev : (mainLoop cfg envs m).2 with
    | false =>
      rw [mainLoop_succ_false cfg envs m hprev] at halive
      simp at halive
    | true =>
      rw [mainLoop_succ_true cfg envs m hprev] at halive ⊢
      rcases Nat.lt_or_ge j m with hjm | hjm
      · exact List.mem_append_left _ (ih hprev j hjm)
      · have : j = m := by omega
        subst this
        exact List.mem_append_right _
          (processPrivateKey_done_mem cfg j (envs j) halive)

theorem mainLoop_start_imp_done (cfg : RunCfg) (envs : Nat → KeyEnv) :
    ∀ n i, MainEv.keyStart (i + 1) ∈ (mainLoop cfg envs n).1 →
      MainEv.keyDone i ∈ (mainLoop cfg envs n).1 := by
  intro n
  induction n with
  | zero => intro i h; simp [mainLoop] at h
  | succ m ih =>
    intro i h
    cases hprev : (mainLoop cfg envs m).2 with
    | false =>
      rw [mainLoop_succ_false cfg envs m hprev] at h ⊢
      exact ih i h
    | true =>
      rw [mainLoop_succ_true cfg envs m hprev] at h ⊢
      rcases List.mem_append.mp h with h1 | h1
      · exact List.mem_append_left _ (ih i h1)
      · have := processPrivateKey_tags cfg m (envs m) _ h1
        simp only [keyOf] at this
        subst this
        exact List.mem_append_left _ (mainLoop_alive_done cfg envs (i + 1) hprev i
          (Nat.lt_succ_self i))

theorem mainLoop_complete (cfg : RunCfg) (envs : Nat → KeyEnv) :
    ∀ n, (∀ i, i < n → (processBody cfg (envs i)).2.2 = true) →
      (mainLoop cfg envs n).2 = true ∧
      ∀ i, i < n → MainEv.keyStart i ∈ (mainLoop cfg envs n).1 ∧
        MainEv.keyDone i ∈ (mainLoop cfg envs n).1 := by
  intro n
  induction n with
  | zero => intro _; exact ⟨rfl, fun i hi => absurd hi (by omega)⟩
  | succ m ih =>
    intro h
    have ihm := ih fun i hi => h i (Nat.lt_succ_of_lt hi)
    rw [mainLoop_succ_true cfg envs m ihm.1]
    have hdone : (processPrivateKey cfg m (envs m)).2 = true := h m (Nat.lt_succ_self m)
    refine ⟨hdone, ?_⟩
    intro i hi
    rcases Nat.lt_or_ge i m with him | him
    · exact ⟨List.mem_append_left _ ((ihm.2 i him).1),
        List.mem_append_left _ ((ihm.2 i him).2)⟩
    · have : i = m := by omega
      subst this
      exact ⟨List.mem_append_right _ (processPrivateKey_start_mem cfg i (envs i)),
        List.mem_append_right _ (processPrivateKey_done_mem cfg i (envs i) hdone)⟩

theorem openBoxesAux_cons_ok (cfg : RunCfg) (env : Nat → Nat → BoxAttemptEnv)
    (i r : Nat) (resp : OpenResp)
    (h : (openMysteryBox cfg (env i) 0 3).1 = .ok resp) :
    openBoxesAux cfg env i (Nat.succ r) =
      ((openMysteryBox cfg (env i) 0 3).2 ++ (openBoxesAux cfg env (i + 1) r).1,
        i :: (openBoxesAux cfg env (i + 1) r).2.1,
        (openBoxesAux cfg env (i + 1) r).2.2) := by
  simp only [openBoxesAux]
  rw [h]

theorem openBoxesAux_cons_err (cfg : RunCfg) (env : Nat → Nat → BoxAttemptEnv)
    (i r : Nat) (er : ApiError)
    (h : (openMysteryBox cfg (env i) 0 3).1 = .error er) :
    openBoxesAux cfg env i (Nat.succ r) =
      ((openMysteryBox cfg (env i) 0 3).2, [i], some er) := by
  simp only [openBoxesAux]
  rw [h]

theorem openBoxesAux_err_none (cfg : RunCfg) (env : Nat → Nat → BoxAttemptEnv) :
    ∀ rem i, (openBoxesAux cfg env i rem).2.2 = none →
      (openBoxesAux cfg env i rem).2.1 = List.range' i rem := by
  intro rem
  induction rem with
  | zero => intro i _; simp [openBoxesAux]
  | succ r ih =>
    intro i h
    cases hp : (openMysteryBox cfg (env i) 0 3).1 with
    | ok resp =>
      rw [openBoxesAux_cons_ok cfg env i r resp hp] at h ⊢
      rw [List.range'_succ]
      simp only [List.cons.injEq, true_and]
      exact ih (i + 1) h
    | error er =>
      rw [openBoxesAux_cons_err cfg env i r er hp] at h
      simp at h

theorem openBoxesAux_all_ok (cfg : RunCfg) (env : Nat → Nat → BoxAttemptEnv) :
    ∀ rem i, (∀ j, j < rem → ((openMysteryBox cfg (env (i + j)) 0 3).1).isOk = true) →
      (openBoxesAux cfg env i rem).2.2 = none := by
  intro rem
  induction rem with
  | zero => intro i _; simp [openBoxesAux]
  | succ r ih =>
    intro i h
    cases hp : (openMysteryBox cfg (env i) 0 3).1 with
    | ok resp =>
      rw [openBoxesAux_cons_ok cfg env i r resp hp]
      exact ih (i + 1) fun j hj => by
        have := h (j + 1) (by omega)
        have harith : i + 1 + j = i + (j + 1) := by omega
        rw [harith]; exact this
    | error er =>
      have := h 0 (by omega)
      simp only [Nat.add_zero] at this
      rw [hp] at this
      simp [Except.isOk, Except.toBool] at this

theorem openBoxesAux_len_le (cfg : RunCfg) (env : Nat → Nat → BoxAttemptEnv) :
    ∀ rem i, (openBoxesAux cfg env i rem).2.1.length ≤ rem := by
  intro rem
  induction rem with
  | zero => intro i; simp [openBoxesAux]
  | succ r ih =>
    intro i
    cases hp : (openMysteryBox cfg (env i) 0 3).1 with
    | ok resp =>
      rw [openBoxesAux_cons_ok cfg env i r resp hp]
      simpa using Nat.succ_le_succ (ih (i + 1))
    | error er =>
      rw [openBoxesAux_cons_err cfg env i r er hp]
      simp

theorem openBoxesAux_fail_at (cfg : RunCfg) (env : Nat → Nat → BoxAttemptEnv) :
    ∀ rem i kf, kf < rem →
      (∀ j, j < kf → ((openMysteryBox cfg (env (i + j)) 0 3).1).isOk = true) →
      ((openMysteryBox cfg (env (i + kf)) 0 3).1).isOk = false →
      (openBoxesAux cfg env i rem).2.1.length = kf + 1 ∧
      (openBoxesAux cfg env i rem).2.2.isSome = true := by
  intro rem
  induction rem with
  | zero => intro i kf hk; omega
  | succ r ih =>
    intro i kf hk hok hfail
    cases kf with
    | zero =>
      simp only [Nat.add_zero] at hfail
      cases hp : (openMysteryBox cfg (env i) 0 3).1 with
      | ok resp =>
        rw [hp] at hfail
        simp [Except.isOk, Except.toBool] at hfail
      | error er =>
        rw [openBoxesAux_cons_err cfg env i r er hp]
        simp
    | succ kf2 =>
      cases hp : (openMysteryBox cfg (env i) 0 3).1 with
      | ok resp =>
        have hrec := ih (i + 1) kf2 (by omega)
          (fun j hj => by
            have := hok (j + 1) (by omega)
            have harith : i + 1 + j = i + (j + 1) := by omega
            rw [harith]; exact this)
          (by
            have harith : i + 1 + kf2 = i + (kf2 + 1) := by omega
            rw [harith]; exact hfail)
        rw [openBoxesAux_cons_ok cfg env i r resp hp]
        constructor
        · simp only [List.length_cons]
          omega
        · exact hrec.2
      | error er =>
        have := hok 0 (by omega)
        simp only [Nat.add_zero] at this
        rw [hp] at this
        simp [Except.isOk, Except.toBool] at this

theorem runAutoFlowIter_split (cfg : RunCfg) (env : IterEnv) (claimFuel : Nat) :
    ∃ xs ys, (runAutoFlowIter cfg env claimFuel).trace = xs ++ ys ∧
      (∀ e ∈ xs, isBoxEv e = false) ∧
      (∀ e ∈ ys, isLoginEv e = false ∧ isClaimEv e = false) := by
  have hlc : ∀ e ∈ dailyLogin cfg env.login ++ (dailyClaim cfg env.claim claimFuel).1,
      isBoxEv e = false := by
    intro e he
    rcases List.mem_append.mp he with h | h
    · exact dailyLogin_not_box cfg env.login e h
    · exact dailyClaim_not_box cfg env.claim claimFuel e h
  have hpev : isBoxEv (Ev.http cfg.net "/user/rewards/info") = false := by
    simp [isBoxEv]
  have hfront : ∀ e ∈ dailyLogin cfg env.login ++
      (dailyClaim cfg env.claim claimFuel).1 ++ [Ev.http cfg.net "/user/rewards/info"],
      isBoxEv e = false := by
    intro e he
    rcases List.mem_append.mp he with h | h
    · exact hlc e h
    · rw [List.mem_singleton] at h; subst h; exact hpev
  rcases runAutoFlowIter_cases cfg env claimFuel with
    ⟨_, htr, _, _⟩ | ⟨_, _, htr, _⟩ | ⟨_, p, _, htr, _⟩
  · exact ⟨_, [], by rw [htr, List.append_nil], hlc, by simp⟩
  · exact ⟨_, [], by rw [htr, List.append_nil], hfront, by simp⟩
  · refine ⟨dailyLogin cfg env.login ++ (dailyClaim cfg env.claim claimFuel).1 ++
      [Ev.http cfg.net "/user/rewards/info"],
      (openMultipleBoxes cfg env.boxes p.ring_monitor).1, ?_, hfront, ?_⟩
    · rw [htr]; simp
    · exact openBoxesAux_not_login_claim cfg env.boxes p.ring_monitor 0

theorem dailyLogin_not_claim (cfg : RunCfg) (env : LoginEnv) :
    ∀ e ∈ dailyLogin cfg env, isClaimEv e = false := by
  intro e he
  rcases dailyLogin_shape cfg env e he with rfl | rfl | rfl | rfl <;>
    simp [isClaimEv]

theorem dailyClaim_not_login (cfg : RunCfg) (env : ClaimEnv) (fuel : Nat) :
    ∀ e ∈ (dailyClaim cfg env fuel).1, isLoginEv e = false := by
  intro e he
  rcases dailyClaim_shape cfg env fuel e he with rfl | ⟨s, rfl⟩ | rfl <;>
    simp [isLoginEv]

theorem runAutoFlowIter_split_login (cfg : RunCfg) (env : IterEnv)
    (claimFuel : Nat) :
    ∃ xs ys, (runAutoFlowIter cfg env claimFuel).trace = xs ++ ys ∧
      (∀ e ∈ xs, isClaimEv e = false) ∧
      (∀ e ∈ ys, isLoginEv e = false) := by
  have hpev : isLoginEv (Ev.http cfg.net "/user/rewards/info") = false := by
    simp [isLoginEv]
  rcases runAutoFlowIter_cases cfg env claimFuel with
    ⟨_, htr, _, _⟩ | ⟨_, _, htr, _⟩ | ⟨_, p, _, htr, _⟩
  · exact ⟨dailyLogin cfg env.login, (dailyClaim cfg env.claim claimFuel).1, htr,
      dailyLogin_not_claim cfg env.login,
      dailyClaim_not_login cfg env.claim claimFuel⟩
  · refine ⟨dailyLogin cfg env.login,
      (dailyClaim cfg env.claim claimFuel).1 ++ [Ev.http cfg.net "/user/rewards/info"],
      by rw [htr, List.append_assoc], dailyLogin_not_claim cfg env.login, ?_⟩
    intro e he
    rcases List.mem_append.mp he with h | h
    · exact dailyClaim_not_login cfg env.claim claimFuel e h
    · rw [List.mem_singleton] at h; subst h; exact hpev
  · refine ⟨dailyLogin cfg env.login,
      (dailyClaim cfg env.claim claimFuel).1 ++ Ev.http cfg.net "/user/rewards/info" ::
        (openMultipleBoxes cfg env.boxes p.ring_monitor).1,
      by rw [htr, List.append_assoc], dailyLogin_not_claim cfg env.login, ?_⟩
    intro e he
    rcases List.mem_append.mp he with h | h
    · exact dailyClaim_not_login cfg env.claim claimFuel e h
    · rcases List.mem_cons.mp h with rfl | h1
      · exact hpev
      · exact (openBoxesAux_not_login_claim cfg env.boxes p.ring_monitor 0 e h1).1

theorem mainOpEv_usesCfg (cfg : RunCfg) (e : MainEv) (h : mainOpEv cfg e) :
    mainEvUsesCfg cfg e = true := by
  cases e with
  | fileRead name => exact absurd h (by simp [mainOpEv])
  | keyStart i => rfl
  | keyDone i => rfl
  | act i ev =>
    simp only [mainOpEv] at h
    rcases h with ⟨p, rfl⟩ | ⟨s, rfl⟩ | rfl | ⟨ms, rfl⟩ <;> simp [mainEvUsesCfg]

theorem mainOpEv_no_file (cfg : RunCfg) (e : MainEv) (h : mainOpEv cfg e) :
    readsFile e = false ∧ writesFile e = false := by
  cases e with
  | fileRead name => exact absurd h (by simp [mainOpEv])
  | keyStart i => exact ⟨rfl, rfl⟩
  | keyDone i => exact ⟨rfl, rfl⟩
  | act i ev =>
    simp only [mainOpEv] at h
    rcases h with ⟨p, rfl⟩ | ⟨s, rfl⟩ | rfl | ⟨ms, rfl⟩ <;> exact ⟨rfl, rfl⟩

/-- C1: `doTransactions` submits the serialized transaction with its retry
counter at the default 3 and retries on any failure after a flat 1000 ms
delay, making at most 4 submission attempts; the first successful attempt's
signature is returned, and when all 4 attempts fail the last attempt's error
is rethrown. -/
theorem C1_doTransactions_retry (connUrl : String)
    (env : Nat → Except ApiError String) :
    txAttempts (doTransactions connUrl env 0 3).2 ≤ 4 ∧
    (∀ ms, Ev.sleep ms ∈ (doTransactions connUrl env 0 3).2 → ms = 1000) ∧
    (∀ k s, k ≤ 3 → (∀ j, j < k → (env j).isOk = false) → env k = .ok s →
      (doTransactions connUrl env 0 3).1 = .ok s ∧
      txAttempts (doTransactions connUrl env 0 3).2 = k + 1) ∧
    ((∀ j, j ≤ 3 → (env j).isOk = false) →
      (doTransactions connUrl env 0 3).1 = env 3 ∧
      txAttempts (doTransactions connUrl env 0 3).2 = 4) := by
  refine ⟨doTransactions_attempts_le connUrl env 3 0,
    doTransactions_sleeps connUrl env 3 0, ?_, ?_⟩
  · intro k s hk hfail hok
    exact doTransactions_first_ok connUrl env 3 0 k s hk
      (fun j hj => by simpa using hfail j hj) (by simpa using hok)
  · intro h
    have := doTransactions_all_fail connUrl env 3 0
      (fun j hj => by simpa using h j hj)
    simpa using this

/-- C1 witness: the first submission attempt fails and the second succeeds, so
`doTransactions` returns the second attempt's signature after exactly two
submissions. -/
theorem C1_doTransactions_retry_witness :
    (doTransactions TESTNET_V1_URL txEnvRetryOnce 0 3).1 = .ok "sig" ∧
    txAttempts (doTransactions TESTNET_V1_URL txEnvRetryOnce 0 3).2 = 2 :=
  (C1_doTransactions_retry TESTNET_V1_URL txEnvRetryOnce).2.2.1 1 "sig" (by omega)
    (fun j hj => by interval_cases j; rfl) rfl

/-- C2: within one iteration of `runAutoFlow`'s unattended loop, the reward
actions happen in the fixed order login → claim → boxes: every box event of
the iteration's trace strictly follows every daily-login and daily-claim
event, every daily-claim event strictly follows every daily-login event, and
the box count passed to `openMultipleBoxes` is the `ring_monitor` of the
profile fetched after the claim. -/
theorem C2_runAutoFlow_order (cfg : RunCfg) (env : IterEnv) (claimFuel : Nat) :
    (∀ (i j : Nat) (ei ej : Ev),
      (runAutoFlowIter cfg env claimFuel).trace[i]? = some ei →
      (runAutoFlowIter cfg env claimFuel).trace[j]? = some ej →
      isBoxEv ei = true → isLoginEv ej = true ∨ isClaimEv ej = true → j < i) ∧
    (∀ (i j : Nat) (ei ej : Ev),
      (runAutoFlowIter cfg env claimFuel).trace[i]? = some ei →
      (runAutoFlowIter cfg env claimFuel).trace[j]? = some ej →
      isClaimEv ei = true → isLoginEv ej = true → j < i) ∧
    (∀ p, env.profile = .ok p →
      (dailyClaim cfg env.claim claimFuel).2 ≠ DailyClaimOutcome.outOfFuel →
      (runAutoFlowIter cfg env claimFuel).boxTotal = some p.ring_monitor) := by
  refine ⟨?_, ?_, ?_⟩
  · rcases runAutoFlowIter_split cfg env claimFuel with ⟨xs, ys, htr, hxs, hys⟩
    intro i j ei ej hie hje hbox hlc
    rw [htr] at hie hje
    refine append_no_cross (fun e => isLoginEv e || isClaimEv e) isBoxEv xs ys hxs
      (fun a ha => ?_) i j ei ej hie hje hbox ?_
    · rcases hys a ha with ⟨h1, h2⟩
      simp [h1, h2]
    · rcases hlc with h | h <;> simp [h]
  · rcases runAutoFlowIter_split_login cfg env claimFuel with ⟨xs, ys, htr, hxs, hys⟩
    intro i j ei ej hie hje hclaim hlogin
    rw [htr] at hie hje
    exact append_no_cross isLoginEv isClaimEv xs ys hxs hys i j ei ej hie hje
      hclaim hlogin
  · intro p hp hnf
    rcases runAutoFlowIter_cases cfg env claimFuel with
      ⟨hc, _, _, _⟩ | ⟨_, ⟨er, her⟩, _, _⟩ | ⟨_, q, hq, _, hbt⟩
    · exact absurd hc hnf
    · rw [hp] at her
      exact absurd her (by simp)
    · rw [hp] at hq
      injection hq with hpq
      rw [hpq]
      exact hbt

/-- C2 witness: in an all-successful iteration whose profile reports one box,
the count handed to `openMultipleBoxes` is that profile's `ring_monitor`,
and a concrete claim event of the trace indeed sits after a concrete login
event. -/
theorem C2_runAutoFlow_order_witness :
    (runAutoFlowIter (mkRunCfg 3) allOkIterEnv 3).boxTotal = some 1 ∧ 2 < 4 :=
  ⟨(C2_runAutoFlow_order (mkRunCfg 3) allOkIterEnv 3).2.2 allOkProfile rfl
      (by decide),
   (C2_runAutoFlow_order (mkRunCfg 3) allOkIterEnv 3).2.1 4 2
      (Ev.claimPost 3 1) (Ev.http 3 "/user/check-in") (by decide) (by decide)
      (by decide) (by decide)⟩

/-- C3: the per-stage error classification of `dailyClaim`'s loop body: a
successful claim advances the counter; an error response with message
'interact task not finished' advances it; an error response with code 100015
or 100016 advances it; any other error — an error response with neither that
message nor one of the two codes, or a request with no response at all —
leaves the counter unchanged so the same stage is attempted again. -/
theorem C3_claimStep_classification (c : Nat) (o : ClaimOutcome) :
    (∀ b, o = .ok b → claimStep c o = c + 1) ∧
    (∀ m code, o = .err (.api m code) →
      m = some "interact task not finished" → claimStep c o = c + 1) ∧
    (∀ m code, o = .err (.api m code) →
      (code = some 100015 ∨ code = some 100016) → claimStep c o = c + 1) ∧
    (∀ m code, o = .err (.api m code) →
      m ≠ some "interact task not finished" →
      ¬(code = some 100015 ∨ code = some 100016) → claimStep c o = c) ∧
    (∀ m, o = .err (.network m) → claimStep c o = c) := by
  refine ⟨?_, ?_, ?_, ?_, ?_⟩
  · rintro b rfl; rfl
  · rintro m code rfl h
    simp [claimStep, h]
  · rintro m code rfl h
    by_cases h1 : m = some "interact task not finished" <;>
      simp [claimStep, h1, h]
  · rintro m code rfl h1 h2
    simp [claimStep, h1, h2]
  · rintro m rfl; rfl

/-- C3 witness: each of the classification cases evaluated on a concrete
response. -/
theorem C3_claimStep_classification_witness :
    claimStep 1 (ClaimOutcome.ok true) = 2 ∧
    claimStep 1 (ClaimOutcome.err
      (ApiError.api (some "interact task not finished") none)) = 2 ∧
    claimStep 2 (ClaimOutcome.err (ApiError.api none (some 100015))) = 3 ∧
    claimStep 1 (ClaimOutcome.err
      (ApiError.api (some "server busy") (some 42))) = 1 ∧
    claimStep 1 (ClaimOutcome.err (ApiError.network "timeout")) = 1 :=
  ⟨(C3_claimStep_classification 1 (ClaimOutcome.ok true)).1 true rfl,
   (C3_claimStep_classification 1 _).2.1 _ _ rfl rfl,
   (C3_claimStep_classification 2 _).2.2.1 _ _ rfl (Or.inl rfl),
   (C3_claimStep_classification 1 _).2.2.2.1 _ _ rfl (by decide) (by decide),
   (C3_claimStep_classification 1 _).2.2.2.2 _ rfl⟩

/-- C4 counterexample: with a server that always answers the claim POST with
an error that does not advance the stage counter, the stage loop of
`dailyClaim` never exits, and the number of claim requests it makes exceeds
every bound — so the loop is not bounded for every possible sequence of
server responses. -/
theorem C4_counterexample :
    (∀ fuel, (claimLoop (mkRunCfg 3) transientResp 0 1 fuel).2.2 = false) ∧
    ¬∃ N, ∀ fuel,
      (claimStages (claimLoop (mkRunCfg 3) transientResp 0 1 fuel).1).length ≤ N := by
  have htr : ∀ i, advancesStage (transientResp i) = false := fun i => rfl
  have key := claimLoop_transient_len (mkRunCfg 3) transientResp htr
  constructor
  · intro fuel
    exact (key fuel 0).2
  · rintro ⟨N, h⟩
    have := h (N + 1)
    rw [(key (N + 1) 0).1] at this
    omega

/-- C4 (amended): `dailyClaim`'s stage loop is bounded whenever every server
response advances the stage counter (success, 'interact task not finished',
or codes 100015/100016): at most `maxCounter = 3` claim requests are made,
every delay in the trace is the flat 1000 ms one, and with fuel for its three
iterations the loop exits; with persistently non-advancing errors the same
stage is retried forever, so no bound covers every response sequence. -/
theorem C4_dailyClaim_bounded_of_advancing (cfg : RunCfg) (env : ClaimEnv)
    (fuel : Nat) (h : ∀ i, advancesStage (env.claimResp i) = true) :
    (claimStages (dailyClaim cfg env fuel).1).length ≤ maxCounter ∧
    (∀ ms, Ev.sleep ms ∈ (dailyClaim cfg env fuel).1 → ms = 1000) ∧
    (3 ≤ fuel → (dailyClaim cfg env fuel).2 ≠ DailyClaimOutcome.outOfFuel) := by
  have hsleep : ∀ ms, Ev.sleep ms ∈ (dailyClaim cfg env fuel).1 → ms = 1000 := by
    intro ms hms
    rcases dailyClaim_shape cfg env fuel _ hms with h1 | ⟨s, h1⟩ | h1
    · exact absurd h1 (by simp)
    · exact absurd h1 (by simp)
    · injection h1
  refine ⟨?_, hsleep, ?_⟩
  · cases hf : env.fetchDaily with
    | ok n =>
      by_cases hn : 10 < n
      · rw [dailyClaim_ok_gt cfg env fuel n hf hn]
        have := claimLoop_stage_count_le cfg env.claimResp h fuel 0 1
        simp only [claimStages, List.filterMap_cons, stageOf, maxCounter] at *
        omega
      · rw [dailyClaim_ok_le cfg env fuel n hf hn]
        simp [claimStages, stageOf]
    | error er =>
      rw [dailyClaim_fetch_err cfg env fuel er hf]
      simp [claimStages, stageOf]
  · intro hfuel
    cases hf : env.fetchDaily with
    | ok n =>
      by_cases hn : 10 < n
      · rw [dailyClaim_ok_gt cfg env fuel n hf hn]
        have := (claimLoop_advancing cfg env.claimResp h fuel 0 hfuel).2
        simp [this]
      · rw [dailyClaim_ok_le cfg env fuel n hf hn]
        simp
    | error er =>
      rw [dailyClaim_fetch_err cfg env fuel er hf]
      simp

/-- C4 witness: with every claim response successful, `dailyClaim` makes at
most 3 requests and its loop exits. -/
theorem C4_dailyClaim_bounded_witness :
    (claimStages (dailyClaim (mkRunCfg 3) allOkClaimEnv 3).1).length ≤ maxCounter ∧
    (dailyClaim (mkRunCfg 3) allOkClaimEnv 3).2 ≠ DailyClaimOutcome.outOfFuel :=
  ⟨(C4_dailyClaim_bounded_of_advancing (mkRunCfg 3) allOkClaimEnv 3
      (fun _ => rfl)).1,
   (C4_dailyClaim_bounded_of_advancing (mkRunCfg 3) allOkClaimEnv 3
      (fun _ => rfl)).2.2 (by omega)⟩

/-- C5: `dailyClaim` fetches the day's transaction count first; with count
strictly greater than 10 it issues claim requests whose stages start at 1,
never decrease and never exceed 3 — exactly stages 1, 2, 3 when every response
advances and the fuel covers three iterations; with count 10 or less it issues
no claim request and raises 'Not enough transactions to claim rewards.'. -/
theorem C5_dailyClaim_gate (cfg : RunCfg) (env : ClaimEnv) (fuel : Nat) :
    ((dailyClaim cfg env fuel).1.head? =
      some (Ev.http cfg.net "/user/transactions/state/daily")) ∧
    (∀ n, env.fetchDaily = .ok n → n ≤ 10 →
      claimStages (dailyClaim cfg env fuel).1 = [] ∧
      (dailyClaim cfg env fuel).2 = DailyClaimOutcome.notEnough) ∧
    (∀ n, env.fetchDaily = .ok n → 10 < n →
      (claimStages (dailyClaim cfg env fuel).1).Chain' (· ≤ ·) ∧
      (∀ s ∈ claimStages (dailyClaim cfg env fuel).1, 1 ≤ s ∧ s ≤ maxCounter) ∧
      (∀ s, (claimStages (dailyClaim cfg env fuel).1).head? = some s → s = 1)) ∧
    (∀ n, env.fetchDaily = .ok n → 10 < n →
      (∀ i, advancesStage (env.claimResp i) = true) → 3 ≤ fuel →
      claimStages (dailyClaim cfg env fuel).1 = [1, 2, 3]) := by
  refine ⟨?_, ?_, ?_, ?_⟩
  · cases hf : env.fetchDaily with
    | ok n =>
      by_cases hn : 10 < n
      · rw [dailyClaim_ok_gt cfg env fuel n hf hn]; rfl
      · rw [dailyClaim_ok_le cfg env fuel n hf hn]; rfl
    | error er => rw [dailyClaim_fetch_err cfg env fuel er hf]; rfl
  · intro n hf hn
    rw [dailyClaim_ok_le cfg env fuel n hf (by omega)]
    exact ⟨rfl, rfl⟩
  · intro n hf hn
    rw [dailyClaim_ok_gt cfg env fuel n hf hn]
    have hs := claimLoop_sorted cfg env.claimResp fuel 0 1
    have hst : claimStages (Ev.http cfg.net "/user/transactions/state/daily" ::
        (claimLoop cfg env.claimResp 0 1 fuel).1) =
        claimStages (claimLoop cfg env.claimResp 0 1 fuel).1 := by
      simp [claimStages, stageOf]
    refine ⟨?_, ?_, ?_⟩
    · rw [show ((Ev.http cfg.net "/user/transactions/state/daily" ::
        (claimLoop cfg env.claimResp 0 1 fuel).1, if (claimLoop cfg
        env.claimResp 0 1 fuel).2.2 then DailyClaimOutcome.finished else
        DailyClaimOutcome.outOfFuel) : List Ev × DailyClaimOutcome).1 =
        Ev.http cfg.net "/user/transactions/state/daily" ::
        (claimLoop cfg env.claimResp 0 1 fuel).1 from rfl, hst]
      exact hs.1
    · intro s hsm
      rw [show ((Ev.http cfg.net "/user/transactions/state/daily" ::
        (claimLoop cfg env.claimResp 0 1 fuel).1, if (claimLoop cfg
        env.claimResp 0 1 fuel).2.2 then DailyClaimOutcome.finished else
        DailyClaimOutcome.outOfFuel) : List Ev × DailyClaimOutcome).1 =
        Ev.http cfg.net "/user/transactions/state/daily" ::
        (claimLoop cfg env.claimResp 0 1 fuel).1 from rfl, hst] at hsm
      have := hs.2.1 s hsm
      exact ⟨this.1, this.2⟩
    · intro s hsm
      rw [show ((Ev.http cfg.net "/user/transactions/state/daily" ::
        (claimLoop cfg env.claimResp 0 1 fuel).1, if (claimLoop cfg
        env.claimResp 0 1 fuel).2.2 then DailyClaimOutcome.finished else
        DailyClaimOutcome.outOfFuel) : List Ev × DailyClaimOutcome).1 =
        Ev.http cfg.net "/user/transactions/state/daily" ::
        (claimLoop cfg env.claimResp 0 1 fuel).1 from rfl, hst] at hsm
      exact hs.2.2 s hsm
  · intro n hf hn hadv hfuel
    rw [dailyClaim_ok_gt cfg env fuel n hf hn]
    have := (claimLoop_advancing cfg env.claimResp hadv fuel 0 hfuel).1
    simpa [claimStages, stageOf] using this

/-- C5 witness: with 5 daily transactions no claim request is issued and the
'not enough' error is raised; with 25 and all-successful responses the stages
claimed are exactly 1, 2, 3. -/
theorem C5_dailyClaim_gate_witness :
    (claimStages (dailyClaim (mkRunCfg 3) lowClaimEnv 3).1 = [] ∧
      (dailyClaim (mkRunCfg 3) lowClaimEnv 3).2 = DailyClaimOutcome.notEnough) ∧
    claimStages (dailyClaim (mkRunCfg 3) allOkClaimEnv 3).1 = [1, 2, 3] :=
  ⟨(C5_dailyClaim_gate (mkRunCfg 3) lowClaimEnv 3).2.1 5 rfl (by omega),
   (C5_dailyClaim_gate (mkRunCfg 3) allOkClaimEnv 3).2.2.2 25 rfl (by omega)
     (fun _ => rfl) (by omega)⟩

/-- C6: the main loop is strictly sequential over the key array: the key tags
along the run's trace never decrease, so every event of key `i` precedes every
event of key `j > i`, and processing of key `i + 1` begins only after key `i`'s
processing has completed. -/
theorem C6_main_sequential (cfg : RunCfg) (envs : Nat → KeyEnv) (n : Nat) :
    ((mainLoop cfg envs n).1.Pairwise fun a b => keyOf a ≤ keyOf b) ∧
    (∀ i, MainEv.keyStart (i + 1) ∈ (mainLoop cfg envs n).1 →
      MainEv.keyDone i ∈ (mainLoop cfg envs n).1) :=
  ⟨mainLoop_pairwise cfg envs n, fun i h => mainLoop_start_imp_done cfg envs n i h⟩

/-- C6 witness: in a concrete two-key run, key 1's start appears in the
trace, so key 0's completion does too. -/
theorem C6_main_sequential_witness :
    MainEv.keyDone 0 ∈ (mainLoop (mkRunCfg 3) (fun _ => okKeyEnv) 2).1 :=
  (C6_main_sequential (mkRunCfg 3) (fun _ => okKeyEnv) 2).2 0 (by decide)

/-- C7: after initialization picks the network type and creates the
connection, nothing reassigns them: every HTTP request in the whole run's
trace carries the network type chosen via `setNetType`, and every transaction
submission uses the connection created by it. -/
theorem C7_network_config_constant (choice : Nat) (envs : Nat → KeyEnv) (n : Nat) :
    (program choice envs n).all
      (mainEvUsesCfg
        { net := (setNetType choice).NETWORK_TYPE
          connUrl := (setNetType choice).connectionUrl }) = true := by
  rw [List.all_eq_true]
  intro e he
  simp only [program, List.mem_cons] at he
  rcases he with rfl | he
  · rfl
  · exact mainOpEv_usesCfg (mkRunCfg choice) e
      (mainLoop_mainOpEv (mkRunCfg choice) envs n e he)

/-- C8: the program persists no state: its whole trace contains exactly one
file read — `privateKeys.json`, the very first event of the run — and no file
write anywhere. -/
theorem C8_no_persistence (choice : Nat) (envs : Nat → KeyEnv) (n : Nat) :
    (program choice envs n).head? = some (MainEv.fileRead "privateKeys.json") ∧
    (program choice envs n).countP readsFile = 1 ∧
    (program choice envs n).countP writesFile = 0 := by
  have hrest : ∀ e ∈ (mainLoop (mkRunCfg choice) envs n).1,
      readsFile e = false ∧ writesFile e = false :=
    fun e he => mainOpEv_no_file _ e (mainLoop_mainOpEv _ envs n e he)
  refine ⟨rfl, ?_, ?_⟩
  · simp only [program, List.countP_cons]
    rw [List.countP_eq_zero.mpr (fun e he => by simp [(hrest e he).1])]
    simp [readsFile]
  · simp only [program, List.countP_cons]
    rw [List.countP_eq_zero.mpr (fun e he => by simp [(hrest e he).2])]
    simp [writesFile]

/-- C9: every error thrown while processing a private key is caught inside
`processPrivateKey`, so whenever each key's body returns (no key is trapped in
one of the source's unbounded loops) the main loop reaches and completes every
key — no matter which requests the environment makes fail. -/
theorem C9_errors_caught (cfg : RunCfg) (envs : Nat → KeyEnv) (n : Nat)
    (h : ∀ i, i < n → (processBody cfg (envs i)).2.2 = true) :
    (mainLoop cfg envs n).2 = true ∧
    ∀ i, i < n → MainEv.keyStart i ∈ (mainLoop cfg envs n).1 ∧
      MainEv.keyDone i ∈ (mainLoop cfg envs n).1 :=
  mainLoop_complete cfg envs n h

/-- C9 witness: the first key's body throws (bad key) yet the second key is
still reached and processed. -/
theorem C9_errors_caught_witness :
    (processBody (mkRunCfg 3) (mixedKeyEnvs 0)).2.1.isSome = true ∧
    MainEv.keyStart 1 ∈ (mainLoop (mkRunCfg 3) mixedKeyEnvs 2).1 :=
  ⟨by decide,
   ((C9_errors_caught (mkRunCfg 3) mixedKeyEnvs 2
      (by intro i hi; interval_cases i <;> decide)).2 1 (by omega)).1⟩

/-- C10: `openMultipleBoxes` calls `openMysteryBox` once per loop index from
`0` to `totalClaim - 1`, regardless of each response's `success` flag; when no
call throws, exactly `totalClaim` calls are made in index order, and a throw
from exhausted retries is the only way fewer calls happen. -/
theorem C10_openMultipleBoxes (cfg : RunCfg) (env : Nat → Nat → BoxAttemptEnv)
    (total : Nat) :
    ((openMultipleBoxes cfg env total).2.2 = none →
      (openMultipleBoxes cfg env total).2.1 = List.range total) ∧
    ((∀ i, i < total → ((openMysteryBox cfg (env i) 0 3).1).isOk = true) →
      (openMultipleBoxes cfg env total).2.2 = none) ∧
    ((openMultipleBoxes cfg env total).2.1.length ≤ total) ∧
    (∀ k, k < total →
      (∀ i, i < k → ((openMysteryBox cfg (env i) 0 3).1).isOk = true) →
      ((openMysteryBox cfg (env k) 0 3).1).isOk = false →
      (openMultipleBoxes cfg env total).2.1.length = k + 1 ∧
      (openMultipleBoxes cfg env total).2.2.isSome = true) := by
  refine ⟨?_, ?_, ?_, ?_⟩
  · intro h
    rw [List.range_eq_range']
    exact openBoxesAux_err_none cfg env total 0 h
  · intro h
    exact openBoxesAux_all_ok cfg env total 0 (fun j hj => by simpa using h j hj)
  · exact openBoxesAux_len_le cfg env total 0
  · intro k hk hok hfail
    exact openBoxesAux_fail_at cfg env total 0 k hk
      (fun j hj => by simpa using hok j hj) (by simpa using hfail)

/-- C10 witness: two boxes whose opens all report `success = false` are still
both opened — the loop ignores the flag. -/
theorem C10_openMultipleBoxes_witness :
    (openMultipleBoxes (mkRunCfg 3) noSuccessBoxEnv 2).2.1 = List.range 2 :=
  (C10_openMultipleBoxes (mkRunCfg 3) noSuccessBoxEnv 2).1
    ((C10_openMultipleBoxes (mkRunCfg 3) noSuccessBoxEnv 2).2.1
      (fun i hi => by interval_cases i <;> decide))

end SonicBot
